import Mathlib

/-!
Verification development for the conversational task-management pipeline
(Hackathon2-Phase3). The frontend code under `src/` is embedded directly
(`Renderer`, `Middleware` namespaces). The backend Tool Registry, message
store and intent-resolution pipeline are only called from the frontend, so
they are modelled from the specification (`Registry`, `Conversations`,
`Pipeline` namespaces); every such definition is marked `Modelled from the
spec:`.
-/

namespace Registry

/-- Modelled from the spec: the error taxonomy of §7 restricted to the kinds
the Tool Registry itself can surface (`ValidationError`, `NotFound`), plus
`Unauthorized`, which §4.2 says is never returned; it is included so that
"never returns `Unauthorized`" is expressible. -/
inductive ToolError where
  | ValidationError
  | NotFound
  | Unauthorized
deriving DecidableEq, Repr

/-- Modelled from the spec: the Task row of §3,
`{id, owner_id, title, description?, completed, created_at, updated_at}`. -/
structure Task where
  id : Nat
  owner_id : String
  title : String
  description : Option String
  completed : Bool
  created_at : Nat
  updated_at : Nat
deriving DecidableEq, Repr

/-- Modelled from the spec: the durable tasks collection (§6), kept in
creation order (oldest first), together with the next fresh task id. -/
structure Store where
  tasks : List Task
  nextId : Nat
deriving DecidableEq, Repr

/-- Modelled from the spec: the Ownership Guard's lightweight
existence+ownership lookup (§4.2): the target row must both exist and have
`owner_id` equal to the caller's id. -/
def findOwned (s : Store) (uid : String) (taskId : Nat) : Option Task :=
  s.tasks.find? (fun t => t.id == taskId && t.owner_id == uid)

/-- Modelled from the spec: `create(owner_id, title, description?) → Task`
(§4.1). Rejects an absent `owner_id` with `ValidationError` before touching
storage (§6); fails with `ValidationError` if `title` is empty; otherwise
appends a fresh, not-completed task (creation order, oldest first). -/
def create (s : Store) (ownerId : Option String) (title : String)
    (descr : Option String) (now : Nat) : Except ToolError (Task × Store) :=
  match ownerId with
  | none => .error .ValidationError
  | some uid =>
    if title = "" then .error .ValidationError
    else
      let t : Task := ⟨s.nextId, uid, title, descr, false, now, now⟩
      .ok (t, ⟨s.tasks ++ [t], s.nextId + 1⟩)

/-- Modelled from the spec: `list(owner_id, filter?) → ordered sequence of
Task` (§4.1), fully materialized, in creation order (the store's order). -/
def list (s : Store) (ownerId : Option String) : Except ToolError (List Task) :=
  match ownerId with
  | none => .error .ValidationError
  | some uid => .ok (s.tasks.filter (fun t => t.owner_id == uid))

/-- Modelled from the spec: the pure record update applied by `update`
(§4.1): supplied fields replace the old ones, `updated_at` is refreshed,
`id`/`owner_id`/`completed`/`created_at` are untouched. -/
def applyUpdate (t : Task) (newTitle newDescr : Option String) (now : Nat) : Task :=
  { t with
    title := newTitle.getD t.title
    description := match newDescr with | some d => some d | none => t.description
    updated_at := now }

/-- Modelled from the spec: `update(owner_id, task_id, title?, description?)
→ Task` (§4.1). Absent `owner_id` is rejected first (§6); the Ownership
Guard's existence+ownership check runs before delegating to the tool
(§4.2), so a foreign or absent target is `NotFound`; then the tool requires
at least one of title/description or fails with `ValidationError`. -/
def update (s : Store) (ownerId : Option String) (taskId : Nat)
    (newTitle newDescr : Option String) (now : Nat) :
    Except ToolError (Task × Store) :=
  match ownerId with
  | none => .error .ValidationError
  | some uid =>
    match findOwned s uid taskId with
    | none => .error .NotFound
    | some t =>
      if newTitle.isNone && newDescr.isNone then .error .ValidationError
      else
        let t' := applyUpdate t newTitle newDescr now
        .ok (t', ⟨s.tasks.map (fun u => if u.id == taskId && u.owner_id == uid then t' else u),
                  s.nextId⟩)

/-- Modelled from the spec: `complete(owner_id, task_id) → Task` (§4.1),
idempotent: an already-completed task is returned unchanged with no write. -/
def complete (s : Store) (ownerId : Option String) (taskId : Nat) (now : Nat) :
    Except ToolError (Task × Store) :=
  match ownerId with
  | none => .error .ValidationError
  | some uid =>
    match findOwned s uid taskId with
    | none => .error .NotFound
    | some t =>
      if t.completed then .ok (t, s)
      else
        let t' := { t with completed := true, updated_at := now }
        .ok (t', ⟨s.tasks.map (fun u => if u.id == taskId && u.owner_id == uid then t' else u),
                  s.nextId⟩)

/-- Modelled from the spec: `delete(owner_id, task_id) → Unit` (§4.1).
`NotFound` if the target is absent or not owned; on success the row is
removed, so a repeated delete of the same id is `NotFound`. -/
def delete (s : Store) (ownerId : Option String) (taskId : Nat) :
    Except ToolError Store :=
  match ownerId with
  | none => .error .ValidationError
  | some uid =>
    match findOwned s uid taskId with
    | none => .error .NotFound
    | some _ => .ok ⟨s.tasks.filter (fun t => !(t.id == taskId)), s.nextId⟩

/-- A demonstration store with a single task owned by `"u1"`, used to
instantiate the hypotheses of the registry theorems. -/
def demoStore : Store :=
  ⟨[⟨0, "u1", "buy milk", none, false, 0, 0⟩], 1⟩

end Registry

namespace Conversations

/-- Modelled from the spec: the `role: user|assistant` field of a Message
(§3). -/
inductive Role where
  | user
  | assistant
deriving DecidableEq, Repr

/-- Modelled from the spec: the Message row of §3,
`{id, conversation_id, role, content, created_at}`; append-only. -/
structure Message where
  id : Nat
  conversation_id : Nat
  role : Role
  content : String
  created_at : Nat
deriving DecidableEq, Repr

/-- Modelled from the spec: the durable messages collection (§6) with the
next fresh message id. -/
structure MessageStore where
  messages : List Message
  nextMsgId : Nat
deriving DecidableEq, Repr

/-- Modelled from the spec: the retrieval order of §3 — non-decreasing
`created_at`, ties broken by `id`. -/
def msgLE (a b : Message) : Prop :=
  a.created_at < b.created_at ∨ (a.created_at = b.created_at ∧ a.id ≤ b.id)

instance : DecidableRel msgLE := fun a b =>
  inferInstanceAs (Decidable (a.created_at < b.created_at ∨
    (a.created_at = b.created_at ∧ a.id ≤ b.id)))

instance : IsTotal Message msgLE :=
  ⟨fun a b => by unfold msgLE; omega⟩

instance : IsTrans Message msgLE :=
  ⟨fun a b c hab hbc => by unfold msgLE at *; omega⟩

/-- Modelled from the spec: retrieving a conversation's messages (§3, §4.3)
— the conversation's rows, sorted non-decreasing in `created_at` with ties
broken by `id`. -/
def getMessages (s : MessageStore) (conv : Nat) : List Message :=
  List.insertionSort msgLE (s.messages.filter (fun m => m.conversation_id == conv))

/-- Modelled from the spec: the Persistence Gateway's append-only write of
one message (§2.7, §3): a fresh id, the supplied conversation, role,
content and timestamp. -/
def appendMessage (s : MessageStore) (conv : Nat) (role : Role)
    (content : String) (now : Nat) : Message × MessageStore :=
  let m : Message := ⟨s.nextMsgId, conv, role, content, now⟩
  (m, ⟨s.messages ++ [m], s.nextMsgId + 1⟩)

/-- A demonstration message store with one user message in conversation 1,
used to instantiate the hypotheses of the ordering theorem. -/
def demoMsgStore : MessageStore :=
  ⟨[⟨0, 1, .user, "add buy milk", 5⟩], 1⟩

end Conversations

namespace Pipeline

/-- Modelled from the spec: the closed operation set of a Resolved Intent
(§3): the five tools plus the `none`/`unclear` fallback. -/
inductive Operation where
  | create
  | listOp
  | update
  | complete
  | delete
  | unclear
deriving DecidableEq, Repr

/-- Modelled from the spec: the ephemeral Resolved Intent of §3,
`{operation, parameters, confidence, ambiguous, missing_fields}`; the
parameters carried here are the title and the task reference. -/
structure ResolvedIntent where
  operation : Operation
  titleParam : Option String
  taskIdParam : Option Nat
  confidence : Nat
  ambiguous : Bool
  missing_fields : List String
deriving DecidableEq, Repr

/-- Modelled from the spec: the per-turn context the Intent Resolver sees
(§4.4): the task ids of the most recent `list` result surfaced in history,
if any. -/
structure TurnContext where
  lastListResult : Option (List Nat)
deriving DecidableEq, Repr

/-- Modelled from the spec: the empty prior context (a fresh conversation,
§4.3). -/
def emptyContext : TurnContext := ⟨none⟩

/-- Modelled from the spec: the Intent Resolver (§4.4), which is otherwise
an external reasoning oracle, restricted to the behaviour the spec fixes:
"delete it" resolves the pronoun against the most recent `list` result in
context; with no referent available it sets `ambiguous := true` and reports
`task_id` among `missing_fields` rather than inventing a value; anything it
cannot classify falls back to `unclear`. -/
def resolveIntent (ctx : TurnContext) (message : String) : ResolvedIntent :=
  if message = "delete it" then
    match ctx.lastListResult with
    | some ids =>
      match ids.getLast? with
      | some i => ⟨.delete, none, some i, 100, false, []⟩
      | none => ⟨.delete, none, none, 100, true, ["task_id"]⟩
    | none => ⟨.delete, none, none, 100, true, ["task_id"]⟩
  else ⟨.unclear, none, none, 0, true, []⟩

/-- Modelled from the spec: one Tool Registry invocation recorded by the
Orchestrator (§4.5). -/
structure ToolCall where
  operation : Operation
  taskId : Option Nat
  title : Option String
deriving DecidableEq, Repr

/-- Modelled from the spec: the outcome of one turn of the Orchestrator —
the ordered Tool Registry calls it made and whether it routed to a
clarification reply instead. -/
structure TurnOutcome where
  toolCalls : List ToolCall
  clarification : Bool
deriving DecidableEq, Repr

/-- Modelled from the spec: the Orchestrator's Validating stage (§4.5): an
intent that is ambiguous or has missing required fields is routed to a
clarification reply with no Tool Registry call made; a valid intent is
turned into its Tool Registry call. -/
def orchestrate (intent : ResolvedIntent) : TurnOutcome :=
  if intent.ambiguous || !intent.missing_fields.isEmpty then
    ⟨[], true⟩
  else
    match intent.operation with
    | .create => ⟨[⟨.create, none, intent.titleParam⟩], false⟩
    | .listOp => ⟨[⟨.listOp, none, none⟩], false⟩
    | .update => ⟨[⟨.update, intent.taskIdParam, intent.titleParam⟩], false⟩
    | .complete => ⟨[⟨.complete, intent.taskIdParam, none⟩], false⟩
    | .delete => ⟨[⟨.delete, intent.taskIdParam, none⟩], false⟩
    | .unclear => ⟨[], true⟩

end Pipeline

namespace Renderer

/-- The parsed task of the TaskMessageRenderer component:
`interface Task { id, title, completed }`. -/
structure Task where
  id : Nat
  title : String
  completed : Bool
deriving DecidableEq, Repr

/-- JavaScript `hay.includes(needle)`: substring containment. -/
def strIncludes (hay needle : String) : Bool :=
  hay.toList.tails.any (fun t => needle.toList.isPrefixOf t)

/-- JavaScript `parseInt` on a non-empty run of decimal digits. -/
def digitsToNat (ds : List Char) : Nat :=
  ds.foldl (fun acc c => acc * 10 + (c.toNat - 48)) 0

/-- One line matched against the regex
`/^\s*(~~)?(\d+)\.\s*(.+?)(~~)?$/` of `parseTaskList`, returning
`(isCompleted, id, title)` on success: leading whitespace, an optional
strikethrough opener `~~` (capture 1), digits (capture 2), a literal dot,
greedy whitespace (given back one character if nothing would be left for
the lazy `(.+?)`), the lazy body (capture 3, which stops as soon as the
rest of the line is empty or exactly `~~`), and an optional trailing `~~`.
The caller trims the title (`match[3].trim()`). -/
def parseLine (line : String) : Option (Bool × Nat × String) :=
  let cs := line.toList.dropWhile Char.isWhitespace
  let res :=
    match cs with
    | '~' :: '~' :: rest => (true, rest)
    | _ => (false, cs)
  let isCompleted := res.1
  let digits := res.2.takeWhile Char.isDigit
  let rest1 := res.2.dropWhile Char.isDigit
  if digits.isEmpty then none
  else
    match rest1 with
    | '.' :: r =>
      if r.isEmpty then none
      else
        let body :=
          if (r.takeWhile Char.isWhitespace).length = r.length then
            r.drop (r.length - 1)
          else r.dropWhile Char.isWhitespace
        let n := body.length
        let title :=
          if 3 ≤ n && body.drop (n - 2) = ['~', '~'] then body.take (n - 2)
          else body
        some (isCompleted, digitsToNat digits, (String.mk title).trim)
    | _ => none

/-- `parseTaskList` from the TaskMessageRenderer component: `null` unless
the content looks like a task-list message; otherwise every line matching
the item pattern becomes a task, and the result is
`tasks.length > 0 ? tasks : null`. -/
def parseTaskList (content : String) : Option (List Task) :=
  if !strIncludes content "**Pending:**" && !strIncludes content "**Completed:**"
      && !strIncludes content "Here are your" then
    none
  else
    let tasks := (content.splitOn "\n").filterMap (fun line =>
      (parseLine line).map (fun x => ⟨x.2.1, x.2.2, x.1⟩))
    if tasks.length > 0 then some tasks else none

/-- The renderer's empty-state branch condition: `TaskMessageRenderer`
shows "No tasks found" exactly when `parseTaskList` returned non-null and
`tasks.length === 0`. -/
def emptyStateShown (content : String) : Bool :=
  match parseTaskList content with
  | none => false
  | some tasks => tasks.length == 0

end Renderer

namespace Middleware

/-- The result of `authMiddleware`: a `NextResponse.redirect` to a target
path (the `callbackUrl` query parameter is not modelled) or
`NextResponse.next()`. -/
inductive MwResult where
  | redirect (target : String)
  | next
deriving DecidableEq, Repr

/-- JavaScript `pathname.startsWith(route)`. -/
def startsWithStr (s p : String) : Bool :=
  p.toList.isPrefixOf s.toList

/-- `const protectedRoutes = ["/"]` from the middleware. -/
def protectedRoutes : List String := ["/"]

/-- `const authRoutes = ["/sign-in", "/sign-up"]` from the middleware. -/
def authRoutes : List String := ["/sign-in", "/sign-up"]

/-- `authMiddleware` from the middleware module: a session either verified
or absent (the `getSession` network call is abstracted to `hasSession`),
then the two route checks in source order: a protected route without a
session redirects to `/sign-in`; an auth route with a session redirects to
`/`; otherwise the request proceeds. -/
def authMiddleware (hasSession : Bool) (pathname : String) : MwResult :=
  if protectedRoutes.any (fun route => startsWithStr pathname route) && !hasSession then
    .redirect "/sign-in"
  else if authRoutes.any (fun route => startsWithStr pathname route) && hasSession then
    .redirect "/"
  else
    .next

end Middleware

/-! Helper lemmas shared by the claim theorems. -/

/-- In a list whose elements have pairwise distinct ids, two members with
the same id are the same element. -/
theorem pairwise_id_unique {l : List Registry.Task}
    (h : l.Pairwise (fun a b => a.id ≠ b.id))
    {a b : Registry.Task} (ha : a ∈ l) (hb : b ∈ l) (hid : a.id = b.id) :
    a = b := by
  induction l with
  | nil => cases ha
  | cons x t ih =>
    rw [List.pairwise_cons] at h
    cases ha with
    | head =>
      cases hb with
      | head => rfl
      | tail _ hb => exact absurd hid (h.1 b hb)
    | tail _ ha =>
      cases hb with
      | head => exact absurd hid.symm (h.1 a ha)
      | tail _ hb => exact ih h.2 ha hb

/-- Replacing every element satisfying `p` by a fixed element `t'` that
itself satisfies `p` commutes with `find? p`. -/
theorem find?_replace (p : Registry.Task → Bool) (t' : Registry.Task)
    (hp : p t' = true) :
    ∀ l : List Registry.Task,
      (l.map (fun u => if p u then t' else u)).find? p
        = (l.find? p).map (fun _ => t') := by
  intro l
  induction l with
  | nil => rfl
  | cons a l ih =>
    by_cases h : p a = true
    · simp [h, hp, List.find?_cons_of_pos]
    · have hfa : p a = false := by simpa using h
      simp [hfa, List.find?_cons_of_neg, ih]

/-- A guarded `some` of a list with positive length is never `some []`. -/
theorem guarded_some_ne_nil (l : List Renderer.Task) :
    (if l.length > 0 then some l else none) ≠ some ([] : List Renderer.Task) := by
  split
  · rename_i h
    intro hc
    rw [Option.some_inj] at hc
    subst hc
    simp at h
  · intro hc
    cases hc

/-- Ordered insertion below a maximal trailing element keeps it trailing. -/
theorem orderedInsert_append_max (a x : Conversations.Message)
    (hax : Conversations.msgLE a x) :
    ∀ l : List Conversations.Message,
      (l ++ [x]).orderedInsert Conversations.msgLE a
        = l.orderedInsert Conversations.msgLE a ++ [x] := by
  intro l
  induction l with
  | nil => simp [List.orderedInsert, hax]
  | cons b t ih =>
    by_cases h : Conversations.msgLE a b
    · simp [List.orderedInsert, h]
    · simp [List.orderedInsert, h, ih]

/-- Sorting a list with a maximal element appended keeps that element
last. -/
theorem insertionSort_append_max (x : Conversations.Message) :
    ∀ l : List Conversations.Message, (∀ a ∈ l, Conversations.msgLE a x) →
      (l ++ [x]).insertionSort Conversations.msgLE
        = l.insertionSort Conversations.msgLE ++ [x] := by
  intro l
  induction l with
  | nil => intro _; simp [List.insertionSort]
  | cons a t ih =>
    intro h
    simp only [List.cons_append, List.insertionSort, List.append_eq]
    rw [ih (fun b hb => h b (List.mem_cons_of_mem _ hb))]
    exact orderedInsert_append_max a x (h a (List.mem_cons_self a t))
      (t.insertionSort Conversations.msgLE)

/-! The claim theorems. -/

/-- Claim C4: resolving the message "delete it" against an empty prior
context produces a Resolved Intent with `ambiguous = true`, and the
Orchestrator then makes zero Tool Registry calls for that turn, routing to
a clarification reply instead. -/
theorem delete_it_empty_context_clarifies :
    (Pipeline.resolveIntent Pipeline.emptyContext "delete it").ambiguous = true ∧
    (Pipeline.orchestrate (Pipeline.resolveIntent Pipeline.emptyContext "delete it")).toolCalls = [] ∧
    (Pipeline.orchestrate (Pipeline.resolveIntent Pipeline.emptyContext "delete it")).clarification = true :=
  ⟨rfl, rfl, rfl⟩

/-- Claim C6: `create` fails with `ValidationError` when the title is
empty, and each of the five tool operations fails with `ValidationError`
on an absent `owner_id` — for every store and every argument value, so
before storage influences the result. The empty-title premise scopes only
over the first conjunct; the five absent-owner conjuncts hold for an
arbitrary `title`. -/
theorem validation_owner_required (s : Registry.Store) (uid : String)
    (title : String) (descr newTitle newDescr : Option String)
    (tid now : Nat) :
    (title = "" →
      Registry.create s (some uid) title descr now = .error .ValidationError) ∧
    Registry.create s none title descr now = .error .ValidationError ∧
    Registry.list s none = .error .ValidationError ∧
    Registry.update s none tid newTitle newDescr now = .error .ValidationError ∧
    Registry.complete s none tid now = .error .ValidationError ∧
    Registry.delete s none tid = .error .ValidationError := by
  refine ⟨?_, rfl, rfl, rfl, rfl, rfl⟩
  intro htitle
  subst htitle
  simp [Registry.create]

/-- Witness for claim C6: the empty-title conjunct at `title = ""`, and
the five absent-owner conjuncts at the non-empty title `"buy milk"`, where
only the missing `owner_id` can be the reason for `ValidationError`. -/
theorem validation_owner_required_witness :
    Registry.create Registry.demoStore (some "u1") "" none 1 = .error .ValidationError ∧
    Registry.create Registry.demoStore none "buy milk" none 1 = .error .ValidationError ∧
    Registry.list Registry.demoStore none = .error .ValidationError ∧
    Registry.update Registry.demoStore none 0 (some "x") none 1 = .error .ValidationError ∧
    Registry.complete Registry.demoStore none 0 1 = .error .ValidationError ∧
    Registry.delete Registry.demoStore none 0 = .error .ValidationError := by
  refine ⟨?_, ?_, ?_, ?_, ?_, ?_⟩
  · exact (validation_owner_required Registry.demoStore "u1" "" none
      (some "x") none 0 1).1 rfl
  · exact (validation_owner_required Registry.demoStore "u1" "buy milk" none
      (some "x") none 0 1).2.1
  · exact (validation_owner_required Registry.demoStore "u1" "buy milk" none
      (some "x") none 0 1).2.2.1
  · exact (validation_owner_required Registry.demoStore "u1" "buy milk" none
      (some "x") none 0 1).2.2.2.1
  · exact (validation_owner_required Registry.demoStore "u1" "buy milk" none
      (some "x") none 0 1).2.2.2.2.1
  · exact (validation_owner_required Registry.demoStore "u1" "buy milk" none
      (some "x") none 0 1).2.2.2.2.2

/-- Claim C9: `parseTaskList` never returns a non-null empty list, so the
"No tasks found" empty-state branch of `TaskMessageRenderer`, guarded by
`tasks.length === 0` after a non-null parse, is unreachable. -/
theorem parseTaskList_never_empty_list (content : String) :
    Renderer.parseTaskList content ≠ some [] ∧
    Renderer.emptyStateShown content = false := by
  have h : Renderer.parseTaskList content ≠ some [] := by
    unfold Renderer.parseTaskList
    split
    · intro hc; cases hc
    · exact guarded_some_ne_nil _
  refine ⟨h, ?_⟩
  unfold Renderer.emptyStateShown
  split
  · rfl
  · rename_i tasks heq
    have hne : tasks ≠ [] := fun hnil => h (by rw [heq, hnil])
    simpa [List.length_eq_zero] using hne

/-- Claim C10: with no valid session, `authMiddleware` redirects every
request to `/sign-in`, because the protected-route check is
`pathname.startsWith("/")`, which holds for every pathname — including the
`/sign-in` and `/sign-up` auth routes themselves. -/
theorem unauthenticated_always_redirected (pathname : String)
    (h : Middleware.startsWithStr pathname "/" = true) :
    Middleware.authMiddleware false pathname = .redirect "/sign-in" ∧
    Middleware.authMiddleware false "/sign-in" = .redirect "/sign-in" ∧
    Middleware.authMiddleware false "/sign-up" = .redirect "/sign-in" := by
  refine ⟨?_, rfl, rfl⟩
  unfold Middleware.authMiddleware
  rw [if_pos]
  simp [Middleware.protectedRoutes, h]

/-- Witness for claim C10 at the concrete pathname `/chat`. -/
theorem unauthenticated_always_redirected_witness :
    Middleware.authMiddleware false "/chat" = .redirect "/sign-in" ∧
    Middleware.authMiddleware false "/sign-in" = .redirect "/sign-in" ∧
    Middleware.authMiddleware false "/sign-up" = .redirect "/sign-in" :=
  unauthenticated_always_redirected "/chat" (by decide)

/-- Claim C1: for distinct users `u1 ≠ u2` and a task `T` owned by `u1`
(in a store with pairwise distinct task ids), every target-bearing Tool
Registry call made with `owner_id = u2` and `target_id = T.id` returns
`NotFound` — never `T`'s data and never `Unauthorized` — so a foreign
target is indistinguishable from an absent one. -/
theorem tool_isolation_foreign_target (s : Registry.Store) (T : Registry.Task)
    (u1 u2 : String) (hids : s.tasks.Pairwise (fun a b => a.id ≠ b.id))
    (hmem : T ∈ s.tasks) (hown : T.owner_id = u1) (hne : u1 ≠ u2)
    (newTitle newDescr : Option String) (now : Nat) :
    Registry.update s (some u2) T.id newTitle newDescr now = .error .NotFound ∧
    Registry.complete s (some u2) T.id now = .error .NotFound ∧
    Registry.delete s (some u2) T.id = .error .NotFound := by
  have hf : Registry.findOwned s u2 T.id = none := by
    rw [Registry.findOwned, List.find?_eq_none]
    intro t ht
    simp only [Bool.and_eq_true, beq_iff_eq, not_and]
    intro hid hownt
    have hTt : t = T := pairwise_id_unique hids ht hmem hid
    exact hne (by rw [← hown, ← hownt, hTt])
  exact ⟨by simp [Registry.update, hf], by simp [Registry.complete, hf],
    by simp [Registry.delete, hf]⟩

/-- Witness for claim C1 with the demo store's task (owned by `u1`)
targeted by `u2`. -/
theorem tool_isolation_foreign_target_witness :
    Registry.update Registry.demoStore (some "u2") 0 (some "x") none 1 = .error .NotFound ∧
    Registry.complete Registry.demoStore (some "u2") 0 1 = .error .NotFound ∧
    Registry.delete Registry.demoStore (some "u2") 0 = .error .NotFound :=
  tool_isolation_foreign_target Registry.demoStore
    ⟨0, "u1", "buy milk", none, false, 0, 0⟩ "u1" "u2"
    (by decide) (by decide) rfl (by decide) (some "x") none 1

/-- Claim C2: `complete` is idempotent — whenever a call succeeds, the
returned task is completed, and repeating the call on the resulting store
succeeds and returns the very same task and store. -/
theorem complete_idempotent (s : Registry.Store) (uid : String)
    (tid now now2 : Nat) (t : Registry.Task) (s' : Registry.Store)
    (h : Registry.complete s (some uid) tid now = .ok (t, s')) :
    t.completed = true ∧
    Registry.complete s' (some uid) tid now2 = .ok (t, s') := by
  cases hf : Registry.findOwned s uid tid with
  | none => simp [Registry.complete, hf] at h
  | some t0 =>
    have hfind := hf
    rw [Registry.findOwned] at hfind
    have hpred := List.find?_some hfind
    cases hc : t0.completed with
    | true =>
      simp only [Registry.complete, hf, hc, if_true, Except.ok.injEq,
        Prod.mk.injEq] at h
      obtain ⟨ht, hs⟩ := h
      subst ht
      subst hs
      exact ⟨hc, by simp [Registry.complete, hf, hc]⟩
    | false =>
      simp only [Registry.complete, hf, hc, Bool.false_eq_true, if_false,
        Except.ok.injEq, Prod.mk.injEq] at h
      obtain ⟨ht, hs⟩ := h
      subst ht
      subst hs
      refine ⟨rfl, ?_⟩
      have hf' : Registry.findOwned
          ⟨s.tasks.map (fun u => if u.id == tid && u.owner_id == uid
              then { t0 with completed := true, updated_at := now } else u),
            s.nextId⟩ uid tid
          = some { t0 with completed := true, updated_at := now } := by
        show (s.tasks.map _).find? _ = _
        rw [find?_replace (fun u => u.id == tid && u.owner_id == uid)
          { t0 with completed := true, updated_at := now } hpred s.tasks]
        rw [Registry.findOwned] at hf
        rw [hf]
        rfl
      simp only [Registry.complete, hf']
      rfl

/-- Witness for claim C2: completing the demo task, then completing it
again, returns the completed task and the store unchanged. -/
theorem complete_idempotent_witness :
    (⟨0, "u1", "buy milk", none, true, 0, 3⟩ : Registry.Task).completed = true ∧
    Registry.complete ⟨[⟨0, "u1", "buy milk", none, true, 0, 3⟩], 1⟩ (some "u1") 0 4
      = .ok (⟨0, "u1", "buy milk", none, true, 0, 3⟩,
             ⟨[⟨0, "u1", "buy milk", none, true, 0, 3⟩], 1⟩) :=
  complete_idempotent Registry.demoStore "u1" 0 3 4
    ⟨0, "u1", "buy milk", none, true, 0, 3⟩
    ⟨[⟨0, "u1", "buy milk", none, true, 0, 3⟩], 1⟩ rfl

/-- Claim C3: `delete` succeeds exactly when a task with the given id is
owned by the caller, fails with `NotFound` when the target is absent or
foreign, and a repeated delete of the same id after a successful one fails
with `NotFound` instead of silently succeeding. -/
theorem delete_error_semantics (s : Registry.Store) (uid : String) (tid : Nat) :
    ((∃ t ∈ s.tasks, t.id = tid ∧ t.owner_id = uid) →
      ∃ s', Registry.delete s (some uid) tid = .ok s') ∧
    ((∀ t ∈ s.tasks, ¬(t.id = tid ∧ t.owner_id = uid)) →
      Registry.delete s (some uid) tid = .error .NotFound) ∧
    (∀ s', Registry.delete s (some uid) tid = .ok s' →
      Registry.delete s' (some uid) tid = .error .NotFound) := by
  refine ⟨?_, ?_, ?_⟩
  · rintro ⟨t, ht, h1, h2⟩
    have hsome : (Registry.findOwned s uid tid).isSome := by
      rw [Registry.findOwned]
      exact List.find?_isSome.2 ⟨t, ht, by simp [h1, h2]⟩
    cases hf : Registry.findOwned s uid tid with
    | none => rw [hf] at hsome; cases hsome
    | some t0 =>
      exact ⟨⟨s.tasks.filter (fun t => !(t.id == tid)), s.nextId⟩,
        by simp [Registry.delete, hf]⟩
  · intro hnone
    have hf : Registry.findOwned s uid tid = none := by
      rw [Registry.findOwned, List.find?_eq_none]
      intro t ht
      simp only [Bool.and_eq_true, beq_iff_eq, not_and]
      intro h1 h2
      exact hnone t ht ⟨h1, h2⟩
    simp [Registry.delete, hf]
  · intro s' h
    cases hf : Registry.findOwned s uid tid with
    | none => simp [Registry.delete, hf] at h
    | some t0 =>
      simp only [Registry.delete, hf, Except.ok.injEq] at h
      subst h
      have hf' : Registry.findOwned
          ⟨s.tasks.filter (fun t => !(t.id == tid)), s.nextId⟩ uid tid = none := by
        rw [Registry.findOwned, List.find?_eq_none]
        intro t ht
        have hmemf := List.of_mem_filter ht
        simp only [Bool.not_eq_true', beq_eq_false_iff_ne] at hmemf
        simp [hmemf]
      simp [Registry.delete, hf']

/-- Witness for claim C3: deleting the demo task succeeds, a foreign id is
`NotFound`, and deleting the same id again after the success is
`NotFound`. -/
theorem delete_error_semantics_witness :
    (∃ s', Registry.delete Registry.demoStore (some "u1") 0 = .ok s') ∧
    Registry.delete Registry.demoStore (some "u1") 5 = .error .NotFound ∧
    Registry.delete (⟨[], 1⟩ : Registry.Store) (some "u1") 0 = .error .NotFound := by
  refine ⟨?_, ?_, ?_⟩
  · exact (delete_error_semantics Registry.demoStore "u1" 0).1
      ⟨⟨0, "u1", "buy milk", none, false, 0, 0⟩, by decide, rfl, rfl⟩
  · exact (delete_error_semantics Registry.demoStore "u1" 5).2.1 (by decide)
  · exact (delete_error_semantics Registry.demoStore "u1" 0).2.2 ⟨[], 1⟩ rfl

/-- Claim C5: `update` fails with `NotFound` when no task with the given
id is owned by the caller, fails with `ValidationError` when the target is
owned but neither a title nor a description is supplied (the Ownership
Guard of §4.2 checks the target before the tool validates its fields), and
on success returns the found task with the supplied fields applied. -/
theorem update_error_semantics (s : Registry.Store) (uid : String) (tid : Nat)
    (newTitle newDescr : Option String) (now : Nat) :
    ((∀ t ∈ s.tasks, ¬(t.id = tid ∧ t.owner_id = uid)) →
      Registry.update s (some uid) tid newTitle newDescr now = .error .NotFound) ∧
    ((∃ t ∈ s.tasks, t.id = tid ∧ t.owner_id = uid) → newTitle = none → newDescr = none →
      Registry.update s (some uid) tid newTitle newDescr now = .error .ValidationError) ∧
    (∀ t' s', Registry.update s (some uid) tid newTitle newDescr now = .ok (t', s') →
      ∃ t, Registry.findOwned s uid tid = some t ∧
        t' = Registry.applyUpdate t newTitle newDescr now) := by
  refine ⟨?_, ?_, ?_⟩
  · intro hnone
    have hf : Registry.findOwned s uid tid = none := by
      rw [Registry.findOwned, List.find?_eq_none]
      intro t ht
      simp only [Bool.and_eq_true, beq_iff_eq, not_and]
      intro h1 h2
      exact hnone t ht ⟨h1, h2⟩
    simp [Registry.update, hf]
  · rintro ⟨t, ht, h1, h2⟩ hnt hnd
    subst hnt
    subst hnd
    have hsome : (Registry.findOwned s uid tid).isSome := by
      rw [Registry.findOwned]
      exact List.find?_isSome.2 ⟨t, ht, by simp [h1, h2]⟩
    cases hf : Registry.findOwned s uid tid with
    | none => rw [hf] at hsome; cases hsome
    | some t0 => simp [Registry.update, hf]
  · intro t' s' h
    cases hf : Registry.findOwned s uid tid with
    | none => simp [Registry.update, hf] at h
    | some t0 =>
      by_cases hv : (newTitle.isNone && newDescr.isNone) = true
      · simp [Registry.update, hf, hv] at h
      · have hv' : (newTitle.isNone && newDescr.isNone) = false :=
          Bool.eq_false_iff.mpr hv
        simp only [Registry.update, hf, hv', Bool.false_eq_true, if_false,
          Except.ok.injEq, Prod.mk.injEq] at h
        exact ⟨t0, rfl, h.1.symm⟩

/-- Witness for claim C5: an absent id is `NotFound`, an owned target with
no fields is `ValidationError`, and a successful title update returns the
task with the new title applied. -/
theorem update_error_semantics_witness :
    Registry.update Registry.demoStore (some "u1") 5 (some "x") none 1 = .error .NotFound ∧
    Registry.update Registry.demoStore (some "u1") 0 none none 1 = .error .ValidationError ∧
    (∃ t, Registry.findOwned Registry.demoStore "u1" 0 = some t ∧
      (⟨0, "u1", "x", none, false, 0, 1⟩ : Registry.Task)
        = Registry.applyUpdate t (some "x") none 1) := by
  refine ⟨?_, ?_, ?_⟩
  · exact (update_error_semantics Registry.demoStore "u1" 5 (some "x") none 1).1 (by decide)
  · exact (update_error_semantics Registry.demoStore "u1" 0 none none 1).2.1
      ⟨⟨0, "u1", "buy milk", none, false, 0, 0⟩, by decide, rfl, rfl⟩ rfl rfl
  · exact (update_error_semantics Registry.demoStore "u1" 0 (some "x") none 1).2.2
      ⟨0, "u1", "x", none, false, 0, 1⟩ ⟨[⟨0, "u1", "x", none, false, 0, 1⟩], 1⟩
      rfl

/-- Claim C8: `list` returns the owner's tasks as a finite, fully
materialized list in the store's creation order (oldest first): it is
exactly the ownership filter of the store, it preserves the strictly
increasing id order (ids are assigned in creation order), it contains
precisely the owner's tasks, and a newly created task appears at the end
of the owner's next listing. -/
theorem list_stable_creation_order (s : Registry.Store) (uid : String)
    (hord : s.tasks.Pairwise (fun a b => a.id < b.id)) :
    Registry.list s (some uid)
        = .ok (s.tasks.filter (fun t => t.owner_id == uid)) ∧
    (s.tasks.filter (fun t => t.owner_id == uid)).Pairwise (fun a b => a.id < b.id) ∧
    (∀ t, t ∈ s.tasks.filter (fun t => t.owner_id == uid) ↔
      t ∈ s.tasks ∧ t.owner_id = uid) ∧
    (∀ title descr now t' s₂,
      Registry.create s (some uid) title descr now = .ok (t', s₂) →
      Registry.list s₂ (some uid)
        = .ok (s.tasks.filter (fun t => t.owner_id == uid) ++ [t'])) := by
  refine ⟨rfl, ?_, ?_, ?_⟩
  · exact hord.filter _
  · intro t
    simp [List.mem_filter]
  · intro title descr now t' s₂ h
    by_cases ht : title = ""
    · simp [Registry.create, ht] at h
    · simp only [Registry.create] at h
      rw [if_neg ht] at h
      simp only [Except.ok.injEq, Prod.mk.injEq] at h
      obtain ⟨h1, h2⟩ := h
      subst h1
      subst h2
      simp [Registry.list, List.filter_append]

/-- Witness for claim C8 at the demo store. -/
theorem list_stable_creation_order_witness :
    Registry.list Registry.demoStore (some "u1")
        = .ok (Registry.demoStore.tasks.filter (fun t => t.owner_id == "u1")) ∧
    (Registry.demoStore.tasks.filter (fun t => t.owner_id == "u1")).Pairwise
      (fun a b => a.id < b.id) ∧
    (∀ t, t ∈ Registry.demoStore.tasks.filter (fun t => t.owner_id == "u1") ↔
      t ∈ Registry.demoStore.tasks ∧ t.owner_id = "u1") ∧
    (∀ title descr now t' s₂,
      Registry.create Registry.demoStore (some "u1") title descr now = .ok (t', s₂) →
      Registry.list s₂ (some "u1")
        = .ok (Registry.demoStore.tasks.filter (fun t => t.owner_id == "u1") ++ [t'])) :=
  list_stable_creation_order Registry.demoStore "u1" (by decide)

/-- Claim C7: retrieving a conversation's messages always yields a
sequence non-decreasing in `created_at` with ties broken by `id`, and —
for a clock that has not gone backwards and a fresh message id — appending
a message and re-retrieving places the new message last. -/
theorem message_ordering_append_last (s : Conversations.MessageStore) (conv : Nat)
    (role : Conversations.Role) (content : String) (now : Nat)
    (hclock : ∀ m ∈ s.messages, m.created_at ≤ now)
    (hfresh : ∀ m ∈ s.messages, m.id < s.nextMsgId) :
    List.Sorted Conversations.msgLE (Conversations.getMessages s conv) ∧
    Conversations.getMessages (Conversations.appendMessage s conv role content now).2 conv
      = Conversations.getMessages s conv
        ++ [(Conversations.appendMessage s conv role content now).1] := by
  constructor
  · exact List.sorted_insertionSort _ _
  · simp only [Conversations.appendMessage, Conversations.getMessages]
    rw [List.filter_append]
    have hsingle : List.filter (fun m => m.conversation_id == conv)
        [(⟨s.nextMsgId, conv, role, content, now⟩ : Conversations.Message)]
        = [⟨s.nextMsgId, conv, role, content, now⟩] := by simp
    rw [hsingle]
    refine insertionSort_append_max _ _ ?_
    intro a ha
    have ha' := (List.mem_filter.1 ha).1
    have h1 := hclock a ha'
    have h2 := hfresh a ha'
    show a.created_at < now ∨ (a.created_at = now ∧ a.id ≤ s.nextMsgId)
    omega

/-- Witness for claim C7: appending an assistant reply at a later
timestamp to the demo conversation keeps the retrieval sorted and places
the reply last. -/
theorem message_ordering_append_last_witness :
    List.Sorted Conversations.msgLE
      (Conversations.getMessages Conversations.demoMsgStore 1) ∧
    Conversations.getMessages
        (Conversations.appendMessage Conversations.demoMsgStore 1 .assistant "ok" 6).2 1
      = Conversations.getMessages Conversations.demoMsgStore 1
        ++ [(Conversations.appendMessage Conversations.demoMsgStore 1 .assistant "ok" 6).1] :=
  message_ordering_append_last Conversations.demoMsgStore 1 .assistant "ok" 6
    (by decide) (by decide)
